import Mathlib

/-!
Formal model of the differential-geometry core of the
Special-Relativity-in-Financial-Modeling (SRFM) repository.

Scalar convention: C++ double values are modelled as exact rational numbers.
Rounding error, overflow and underflow are not modelled, so spec statements of
the form "equal to X within tolerance t" are rendered as exact equality with X.
Where the source branches on std::isfinite (the srfm::geodesic and
srfm::manifold module, and the geodesic-deviation calculator), a double is
modelled by the type Dbl: an exact rational extended with a non-finite marker
nan standing for any of IEEE NaN, +inf, -inf.  Arithmetic propagates the
marker, which is faithful to IEEE for the operations used in that code
(+, -, *, unary -: any non-finite operand yields a non-finite result).
Square roots are modelled by Rat.sqrt, which agrees with IEEE sqrt at 0 and on
perfect squares and preserves finiteness; no verified statement below depends
on the value of a square root other than at 0.
-/

namespace SRFM

/-- A point in the 4-dimensional financial spacetime (types.hpp, SpacetimePoint). -/
abbrev SpacetimePoint := Fin 4 → ℚ

/-- A tangent vector, same shape as a point (types.hpp, FourVelocity). -/
abbrev FourVelocity := Fin 4 → ℚ

/-- The 4x4 metric matrix (types.hpp, MetricMatrix). -/
abbrev MetricMatrix := Matrix (Fin 4) (Fin 4) ℚ

/-- A position-dependent metric function (tensor.hpp, MetricFunction).  A
tensor::MetricTensor object is exactly its stored metric_fn_, so it is
modelled as the function itself. -/
abbrev MetricFunction := SpacetimePoint → MetricMatrix

namespace tensor

/-- MetricTensor::evaluate (src/tensor/metric_tensor.cpp): apply metric_fn_. -/
def MetricTensor.evaluate (f : MetricFunction) (x : SpacetimePoint) : MetricMatrix :=
  f x

/-- MetricTensor::inverse (src/tensor/metric_tensor.cpp): full-pivoting LU
inversion, modelled exactly: the matrix is invertible iff its determinant is
nonzero, in which case the inverse is the adjugate divided by the determinant. -/
def MetricTensor.inverse (f : MetricFunction) (x : SpacetimePoint) :
    Option MetricMatrix :=
  let g := MetricTensor.evaluate f x
  if g.det = 0 then none else some (g.det⁻¹ • g.adjugate)

/-- MetricTensor::make_minkowski (src/tensor/metric_tensor.cpp): the constant
diagonal metric diag(-ts^2, ss^2, ss^2, ss^2). -/
def MetricTensor.make_minkowski (time_scale spatial_scale : ℚ) : MetricFunction :=
  fun _ => Matrix.diagonal fun i =>
    if i = 0 then -(time_scale * time_scale) else spatial_scale * spatial_scale

/-- ChristoffelSymbols::metric_derivative (src/tensor/christoffel.cpp):
central finite difference (g(x + h e_sigma) - g(x - h e_sigma)) / (2h). -/
def ChristoffelSymbols.metric_derivative (f : MetricFunction) (h : ℚ)
    (x : SpacetimePoint) (sigma : Fin 4) : MetricMatrix :=
  (2 * h)⁻¹ •
    (MetricTensor.evaluate f (Function.update x sigma (x sigma + h)) -
     MetricTensor.evaluate f (Function.update x sigma (x sigma - h)))

/-- ChristoffelSymbols::compute (src/tensor/christoffel.cpp): all 64 symbols
at x.  Returns the all-zero array when the metric is singular at x; otherwise
combines the four central-difference derivative matrices with the inverse
metric by the Levi-Civita formula. -/
def ChristoffelSymbols.compute (f : MetricFunction) (h : ℚ) (x : SpacetimePoint) :
    Fin 4 → MetricMatrix :=
  match MetricTensor.inverse f x with
  | none => fun _ => 0
  | some g_inv =>
      let dg : Fin 4 → MetricMatrix := fun s =>
        ChristoffelSymbols.metric_derivative f h x s
      fun lambda => Matrix.of fun mu nu =>
        (1 / 2) * ∑ sigma : Fin 4,
          g_inv lambda sigma * (dg mu nu sigma + dg nu mu sigma - dg sigma mu nu)

/-- ChristoffelSymbols::contract (src/tensor/christoffel.cpp):
result^lambda = sum over mu, nu of Gamma^lambda_munu u^mu u^nu. -/
def ChristoffelSymbols.contract (gamma : Fin 4 → MetricMatrix) (u : FourVelocity) :
    FourVelocity :=
  fun lambda => ∑ mu : Fin 4, ∑ nu : Fin 4, gamma lambda mu nu * u mu * u nu

/-- GeodesicState (include/srfm/tensor.hpp): phase-space state. -/
structure GeodesicState where
  position : SpacetimePoint
  velocity : FourVelocity
deriving DecidableEq

instance : Inhabited GeodesicState := ⟨⟨0, 0⟩⟩

/-- Pointwise addition of states (tensor.hpp, GeodesicState::operator+). -/
instance : Add GeodesicState :=
  ⟨fun a b => ⟨a.position + b.position, a.velocity + b.velocity⟩⟩

/-- Scalar multiplication of a state (tensor.hpp, operator* on double). -/
instance : SMul ℚ GeodesicState :=
  ⟨fun c s => ⟨c • s.position, c • s.velocity⟩⟩

/-- GeodesicSolver::rk4_step (src/tensor/geodesic.cpp): one classical RK4 step
of the geodesic ODE with derivative (u, -contract(compute(x), u)). -/
def GeodesicSolver.rk4_step (f : MetricFunction) (christoffel_h step_size : ℚ)
    (state : GeodesicState) : GeodesicState :=
  let derivative : GeodesicState → GeodesicState := fun s =>
    ⟨s.velocity,
     (-1 : ℚ) • ChristoffelSymbols.contract
        (ChristoffelSymbols.compute f christoffel_h s.position) s.velocity⟩
  let k1 := derivative state
  let k2 := derivative (state + (step_size / 2) • k1)
  let k3 := derivative (state + (step_size / 2) • k2)
  let k4 := derivative (state + step_size • k3)
  state + (step_size / 6) • (k1 + (2 : ℚ) • k2 + (2 : ℚ) • k3 + k4)

/-- Trajectory loop of GeodesicSolver::integrate (src/tensor/geodesic.cpp):
push the current state, then advance by rk4_step once per remaining step. -/
def GeodesicSolver.trajectory (f : MetricFunction) (christoffel_h step_size : ℚ) :
    GeodesicState → ℕ → List GeodesicState
  | s, 0 => [s]
  | s, n + 1 =>
      s :: GeodesicSolver.trajectory f christoffel_h step_size
        (GeodesicSolver.rk4_step f christoffel_h step_size s) n

/-- GeodesicSolver::integrate (src/tensor/geodesic.cpp): the full trajectory of
steps+1 states starting from (x0, u0). -/
def GeodesicSolver.integrate (f : MetricFunction) (christoffel_h step_size : ℚ)
    (x0 : SpacetimePoint) (u0 : FourVelocity) (steps : ℕ) : List GeodesicState :=
  GeodesicSolver.trajectory f christoffel_h step_size ⟨x0, u0⟩ steps

end tensor

/-- Model of a C++ double in the code paths that branch on std::isfinite: an
exact rational (finite value) or the marker nan covering every non-finite
IEEE value (NaN, +inf, -inf). -/
inductive Dbl where
  | nan : Dbl
  | fin : ℚ → Dbl
deriving DecidableEq

namespace Dbl

/-- Model of std::isfinite on a Dbl. -/
def isFin : Dbl → Bool
  | nan => false
  | fin _ => true

/-- Rational value of a finite Dbl (0 on the non-finite marker; only applied
where the source has already established finiteness). -/
def toQ : Dbl → ℚ
  | nan => 0
  | fin q => q

/-- Addition: non-finite operands propagate, as in IEEE for +. -/
def add : Dbl → Dbl → Dbl
  | fin a, fin b => fin (a + b)
  | _, _ => nan

/-- Subtraction: non-finite operands propagate, as in IEEE for -. -/
def sub : Dbl → Dbl → Dbl
  | fin a, fin b => fin (a - b)
  | _, _ => nan

/-- Multiplication: non-finite operands propagate, as in IEEE for *
(NaN times anything is NaN, inf times anything is inf or NaN). -/
def mul : Dbl → Dbl → Dbl
  | fin a, fin b => fin (a * b)
  | _, _ => nan

/-- Negation preserves non-finiteness. -/
def neg : Dbl → Dbl
  | nan => nan
  | fin a => fin (-a)

instance : Add Dbl := ⟨add⟩

instance : Sub Dbl := ⟨sub⟩

instance : Mul Dbl := ⟨mul⟩

instance : Neg Dbl := ⟨neg⟩

instance : Zero Dbl := ⟨fin 0⟩

instance : Inhabited Dbl := ⟨fin 0⟩

/-- Comparison x >= 0.0 on a double, false on non-finite NaN input (the only
non-finite case reachable in the source is NaN-guarded anyway). -/
def ge_zero : Dbl → Bool
  | nan => false
  | fin q => decide (0 ≤ q)

/-- Comparison x <= 0.0 on a double, false on NaN as in IEEE. -/
def le_zero : Dbl → Bool
  | nan => false
  | fin q => decide (q ≤ 0)

instance : AddCommMonoid Dbl where
  add_assoc a b c := by
    cases a <;> cases b <;> cases c <;>
      first
        | rfl
        | exact congrArg Dbl.fin (add_assoc _ _ _)
  zero_add a := by
    cases a <;> first | rfl | exact congrArg Dbl.fin (zero_add _)
  add_zero a := by
    cases a <;> first | rfl | exact congrArg Dbl.fin (add_zero _)
  add_comm a b := by
    cases a <;> cases b <;>
      first
        | rfl
        | exact congrArg Dbl.fin (add_comm _ _)
  nsmul := nsmulRec

end Dbl

namespace manifold

/-- MetricTensor (src/manifold/spacetime_manifold.hpp): raw 4x4 array of
doubles. -/
structure MetricTensor where
  g : Fin 4 → Fin 4 → Dbl
deriving DecidableEq

/-- MetricTensor::minkowski (src/manifold/spacetime_manifold.cpp):
diag(-1, +1, +1, +1) with zero off-diagonal entries. -/
def MetricTensor.minkowski : MetricTensor :=
  ⟨fun i j =>
    if i = j then (if i = 0 then Dbl.fin (-1) else Dbl.fin 1) else Dbl.fin 0⟩

/-- MetricTensor::is_valid (src/manifold/spacetime_manifold.cpp): all entries
finite, then time-time entry not >= 0, then no spatial diagonal entry <= 0. -/
def MetricTensor.is_valid (m : MetricTensor) : Bool :=
  if ¬ (∀ mu nu : Fin 4, (m.g mu nu).isFin = true) then false
  else if (m.g 0 0).ge_zero then false
  else if ∃ i : Fin 4, i ≠ 0 ∧ (m.g i i).le_zero then false
  else true

/-- MetricTensor::inverse_diagonal (src/manifold/spacetime_manifold.cpp):
diagonal fast path; fails when a diagonal entry is non-finite or zero. -/
def MetricTensor.inverse_diagonal (m : MetricTensor) : Option MetricTensor :=
  if ∃ i : Fin 4, (m.g i i).isFin = false ∨ m.g i i = Dbl.fin 0 then none
  else some ⟨fun i j => if i = j then Dbl.fin ((m.g i i).toQ)⁻¹ else Dbl.fin 0⟩

/-- christoffel_index (src/manifold/spacetime_manifold.hpp): pack
(lambda, mu, nu) into a flat index in [0, 64). -/
def christoffel_index (lambda mu nu : Fin 4) : Fin 64 :=
  ⟨lambda.val * 16 + mu.val * 4 + nu.val, by
    have := lambda.isLt
    have := mu.isLt
    have := nu.isLt
    omega⟩

/-- SpacetimeManifold::christoffelSymbols (src/manifold/spacetime_manifold.cpp).
The source fills the flat array with, at index christoffel_index(lambda,mu,nu),
the sum over sigma of 0.5 * g_inv[lambda][sigma] * (0.0 + 0.0 - 0.0) — the
three derivative terms are literal zero constants.  The value depends only on
lambda = idx / 16.  Returns all zeros for an invalid or non-invertible metric. -/
def SpacetimeManifold.christoffelSymbols (metric : MetricTensor) : Fin 64 → Dbl :=
  if metric.is_valid = false then fun _ => Dbl.fin 0
  else
    match metric.inverse_diagonal with
    | none => fun _ => Dbl.fin 0
    | some g_inv => fun idx =>
        let lambda : Fin 4 := ⟨idx.val / 16, by have := idx.isLt; omega⟩
        ∑ sigma : Fin 4,
          Dbl.fin (1 / 2) * g_inv.g lambda sigma *
            (Dbl.fin 0 + Dbl.fin 0 - Dbl.fin 0)

end manifold

namespace geodesic

/-- GeodesicState (src/geodesic/geodesic_solver.hpp): position and 4-velocity
component arrays. -/
structure GeodesicState where
  x : Fin 4 → Dbl
  u : Fin 4 → Dbl
deriving DecidableEq

instance : Inhabited GeodesicState := ⟨⟨fun _ => Dbl.fin 0, fun _ => Dbl.fin 0⟩⟩

/-- GeodesicState::is_finite (src/geodesic/geodesic_solver.cpp): every position
and velocity component is finite. -/
def GeodesicState.is_finite (s : GeodesicState) : Bool :=
  decide (∀ i : Fin 4, (s.x i).isFin = true ∧ (s.u i).isFin = true)

/-- geodesic_acceleration (src/geodesic/geodesic_solver.cpp):
a^lambda = -(sum over mu, nu of Gamma[index(lambda,mu,nu)] u^mu u^nu). -/
def geodesic_acceleration (gamma : Fin 64 → Dbl) (u : Fin 4 → Dbl) :
    Fin 4 → Dbl :=
  fun lambda =>
    -(∑ mu : Fin 4, ∑ nu : Fin 4,
        gamma (manifold.christoffel_index lambda mu nu) * u mu * u nu)

/-- Combined output state of rk4_step (src/geodesic/geodesic_solver.cpp)
before its per-component finiteness check: the four RK4 stages with
stage states s2, s3, s4 and stage accelerations a1..a4. -/
def rk4_combine (s : GeodesicState) (christoffel : Fin 64 → Dbl) (dt : ℚ) :
    GeodesicState :=
  let a1 := geodesic_acceleration christoffel s.u
  let s2 : GeodesicState :=
    ⟨fun i => s.x i + Dbl.fin (1 / 2) * Dbl.fin dt * s.u i,
     fun i => s.u i + Dbl.fin (1 / 2) * Dbl.fin dt * a1 i⟩
  let a2 := geodesic_acceleration christoffel s2.u
  let s3 : GeodesicState :=
    ⟨fun i => s.x i + Dbl.fin (1 / 2) * Dbl.fin dt * s2.u i,
     fun i => s.u i + Dbl.fin (1 / 2) * Dbl.fin dt * a2 i⟩
  let a3 := geodesic_acceleration christoffel s3.u
  let s4 : GeodesicState :=
    ⟨fun i => s.x i + Dbl.fin dt * s3.u i,
     fun i => s.u i + Dbl.fin dt * a3 i⟩
  let a4 := geodesic_acceleration christoffel s4.u
  ⟨fun i => s.x i + Dbl.fin (dt / 6) *
      (s.u i + Dbl.fin 2 * s2.u i + Dbl.fin 2 * s3.u i + s4.u i),
   fun i => s.u i + Dbl.fin (dt / 6) *
      (a1 i + Dbl.fin 2 * a2 i + Dbl.fin 2 * a3 i + a4 i)⟩

/-- rk4_step (src/geodesic/geodesic_solver.cpp): returns none exactly when some
component of the combined state is non-finite. -/
def rk4_step (s : GeodesicState) (christoffel : Fin 64 → Dbl) (dt : ℚ) :
    Option GeodesicState :=
  let out := rk4_combine s christoffel dt
  if out.is_finite then some out else none

/-- Iteration loop of GeodesicSolver::solve: n repetitions of rk4_step with
failure propagation. -/
def solveLoop (christoffel : Fin 64 → Dbl) (dt : ℚ) :
    GeodesicState → ℕ → Option GeodesicState
  | s, 0 => some s
  | s, n + 1 =>
      match rk4_step s christoffel dt with
      | none => none
      | some s2 => solveLoop christoffel dt s2 n

/-- Step-count clamp of GeodesicSolver::solve: std::clamp(steps, 1, 100000). -/
def clampSteps (steps : ℤ) : ℕ := (min (max steps 1) 100000).toNat

/-- Step-size clamp of GeodesicSolver::solve: std::clamp(dt, 1e-8, 1.0). -/
def clampDt (dt : ℚ) : ℚ := min (max dt (1 / 100000000)) 1

/-- GeodesicSolver::solve (src/geodesic/geodesic_solver.cpp): validate the
initial state, clamp the integration parameters, validate the metric, compute
the (constant) Christoffel symbols once, then run the RK4 loop. -/
def GeodesicSolver.solve (initial : GeodesicState) (metric : manifold.MetricTensor)
    (steps : ℤ) (dt : ℚ) : Option GeodesicState :=
  if initial.is_finite = false then none
  else if metric.is_valid = false then none
  else
    solveLoop (manifold.SpacetimeManifold.christoffelSymbols metric)
      (clampDt dt) initial (clampSteps steps)

end geodesic

namespace manifold

/-- SpacetimeEvent (include/srfm/manifold.hpp): one market observation with
four double coordinates (time, price, volume, momentum). -/
structure SpacetimeEvent where
  time : Dbl
  price : Dbl
  volume : Dbl
  momentum : Dbl
deriving DecidableEq

instance : Inhabited SpacetimeEvent :=
  ⟨⟨Dbl.fin 0, Dbl.fin 0, Dbl.fin 0, Dbl.fin 0⟩⟩

end manifold

namespace tensor

/-- DEFAULT_GEODESIC_STEP (include/srfm/constants.hpp): 0.01. -/
def DEFAULT_GEODESIC_STEP : ℚ := 1 / 100

/-- DEFAULT_FD_STEP (include/srfm/constants.hpp): 1e-5. -/
def DEFAULT_FD_STEP : ℚ := 1 / 100000

/-- GeodesicSignal (include/srfm/geodesic_signal.hpp): per-bar deviation
sample.  The recorded proper time is always a finite double, modelled directly
as a rational. -/
structure GeodesicSignal where
  geodesic_deviation : Dbl
  proper_time : ℚ
  is_valid : Bool
deriving DecidableEq

/-- Point type flowing through the deviation calculator: a spacetime point
whose double components may be non-finite. -/
abbrev DblPoint := Fin 4 → Dbl

/-- GeodesicDeviationCalculator::to_point (src/tensor/geodesic_signal.cpp):
p[0] = time, p[1] = price, p[2] = volume, p[3] = momentum. -/
def GeodesicDeviationCalculator.to_point (ev : manifold.SpacetimeEvent) :
    DblPoint :=
  fun i =>
    if i = 0 then ev.time
    else if i = 1 then ev.price
    else if i = 2 then ev.volume
    else ev.momentum

/-- Finiteness guard all_finite inside GeodesicDeviationCalculator::compute:
every component of the point is finite. -/
def all_finite (p : DblPoint) : Bool :=
  decide (∀ i : Fin 4, (p i).isFin = true)

/-- Rational value vector of a DblPoint; a finite double is modelled by its
exact rational value, so on guard-passed points this is the identity
embedding into the exact-arithmetic integrator. -/
def DblPoint.toQ (p : DblPoint) : Fin 4 → ℚ := fun i => (p i).toQ

/-- Embedding of an exact-rational point back into double components (every
rational value is a finite double). -/
def liftPoint (p : Fin 4 → ℚ) : DblPoint := fun i => Dbl.fin (p i)

/-- GeodesicDeviationCalculator::estimate_velocity
(src/tensor/geodesic_signal.cpp): displacement p1 - p0 normalised to unit
length, falling back to the canonical time direction when the length is
degenerate.  The source guard is !isfinite(norm) || norm < 100 * DBL_EPSILON;
in exact arithmetic the norm of a finite displacement is always finite, so
only the threshold test remains, with DBL_EPSILON = 2^-52.  The Euclidean
norm is modelled with Rat.sqrt. -/
def GeodesicDeviationCalculator.estimate_velocity (p0 p1 : Fin 4 → ℚ) :
    Fin 4 → ℚ :=
  let u : Fin 4 → ℚ := p1 - p0
  let norm : ℚ := Rat.sqrt (∑ i : Fin 4, u i * u i)
  if norm < 100 * (1 / 2 ^ 52) then fun i => if i = 0 then 1 else 0
  else norm⁻¹ • u

/-- GeodesicDeviationCalculator::spatial_deviation
(src/tensor/geodesic_signal.cpp): Euclidean norm of the spatial component
differences [1..3]; a non-finite squared sum is coerced to the finite value
0.0 before the square root is taken. -/
def GeodesicDeviationCalculator.spatial_deviation (actual geodesic : DblPoint) :
    Dbl :=
  let d1 := actual 1 - geodesic 1
  let d2 := actual 2 - geodesic 2
  let d3 := actual 3 - geodesic 3
  let sq := d1 * d1 + d2 * d2 + d3 * d3
  match sq with
  | Dbl.nan => Dbl.fin 0
  | Dbl.fin v => Dbl.fin (Rat.sqrt v)

/-- GeodesicDeviationCalculator::compute (src/tensor/geodesic_signal.cpp).
The calculator is constructed from a metric and a proper-time step size
step_size, forwarded to the geodesic solver together with the default
finite-difference step.  Note that the proper time recorded for sample i is
i * constants::DEFAULT_GEODESIC_STEP (the global constant), not
i * step_size. -/
def GeodesicDeviationCalculator.compute (f : MetricFunction) (step_size : ℚ)
    (events : List manifold.SpacetimeEvent) : List GeodesicSignal :=
  if events.length = 0 then []
  else if events.length = 1 then [⟨Dbl.fin 0, 0, true⟩]
  else
    let actual_points := events.map GeodesicDeviationCalculator.to_point
    if ¬ (all_finite (actual_points.getD 0 default) = true ∧
          all_finite (actual_points.getD 1 default) = true) then
      List.replicate events.length ⟨Dbl.fin 0, 0, false⟩
    else
      let p0 := DblPoint.toQ (actual_points.getD 0 default)
      let p1 := DblPoint.toQ (actual_points.getD 1 default)
      let u0 := GeodesicDeviationCalculator.estimate_velocity p0 p1
      let trajectory := GeodesicSolver.integrate f DEFAULT_FD_STEP step_size
        p0 u0 (events.length - 1)
      (List.range events.length).map fun i =>
        let actual := actual_points.getD i default
        let geodesic := liftPoint (trajectory.getD i default).position
        let valid := all_finite actual && all_finite geodesic
        if valid then
          let deviation :=
            GeodesicDeviationCalculator.spatial_deviation actual geodesic
          if deviation.isFin = false then
            ⟨Dbl.fin 0, (i : ℚ) * DEFAULT_GEODESIC_STEP, false⟩
          else
            ⟨deviation, (i : ℚ) * DEFAULT_GEODESIC_STEP, true⟩
        else ⟨Dbl.fin 0, (i : ℚ) * DEFAULT_GEODESIC_STEP, false⟩

end tensor

namespace tensor

/-- For a position-independent metric the central finite difference of the
metric is the zero matrix, exactly. -/
theorem metric_derivative_const (f : MetricFunction) (hc : ∀ p q, f p = f q)
    (h : ℚ) (x : SpacetimePoint) (sigma : Fin 4) :
    ChristoffelSymbols.metric_derivative f h x sigma = 0 := by
  unfold ChristoffelSymbols.metric_derivative MetricTensor.evaluate
  rw [hc (Function.update x sigma (x sigma + h))
      (Function.update x sigma (x sigma - h))]
  simp

/-- For a position-independent metric every Christoffel symbol computed by
ChristoffelSymbols::compute is exactly zero, on both branches of the
singular-metric test. -/
theorem compute_const (f : MetricFunction) (hc : ∀ p q, f p = f q)
    (h : ℚ) (x : SpacetimePoint) (lambda : Fin 4) :
    ChristoffelSymbols.compute f h x lambda = 0 := by
  unfold ChristoffelSymbols.compute
  cases hinv : MetricTensor.inverse f x with
  | none => rfl
  | some g_inv =>
      ext mu nu
      simp [metric_derivative_const f hc]

/-- Contracting the Christoffel symbols of a position-independent metric with
any velocity gives the zero acceleration vector. -/
theorem contract_compute_const (f : MetricFunction) (hc : ∀ p q, f p = f q)
    (h : ℚ) (x : SpacetimePoint) (u : FourVelocity) :
    ChristoffelSymbols.contract (ChristoffelSymbols.compute f h x) u = 0 := by
  funext lambda
  unfold ChristoffelSymbols.contract
  simp [compute_const f hc]

/-- Componentwise description of state addition. -/
theorem state_add_mk (p1 v1 p2 v2 : Fin 4 → ℚ) :
    (⟨p1, v1⟩ + ⟨p2, v2⟩ : GeodesicState) = ⟨p1 + p2, v1 + v2⟩ := rfl

/-- Componentwise description of state scalar multiplication. -/
theorem state_smul_mk (c : ℚ) (p v : Fin 4 → ℚ) :
    (c • (⟨p, v⟩ : GeodesicState)) = ⟨c • p, c • v⟩ := rfl

/-- On a position-independent metric one RK4 step reduces to uniform linear
motion, exactly: position advances by step times velocity, velocity is kept. -/
theorem rk4_step_const (f : MetricFunction) (hc : ∀ p q, f p = f q)
    (h step : ℚ) (s : GeodesicState) :
    GeodesicSolver.rk4_step f h step s =
      ⟨s.position + step • s.velocity, s.velocity⟩ := by
  obtain ⟨x, u⟩ := s
  show GeodesicSolver.rk4_step f h step ⟨x, u⟩ = ⟨x + step • u, u⟩
  unfold GeodesicSolver.rk4_step
  simp only [contract_compute_const f hc, smul_zero, state_add_mk, state_smul_mk,
    add_zero, smul_add]
  congr 1
  all_goals funext i
  all_goals simp only [Pi.add_apply, Pi.smul_apply, smul_eq_mul]
  all_goals ring

/-- The trajectory of integrate has exactly steps + 1 entries: the loop in
GeodesicSolver::integrate performs exactly steps RK4 iterations. -/
theorem trajectory_length (f : MetricFunction) (h step : ℚ) (s : GeodesicState)
    (n : ℕ) : (GeodesicSolver.trajectory f h step s n).length = n + 1 := by
  induction n generalizing s with
  | zero => rfl
  | succ n ih => simp [GeodesicSolver.trajectory, ih]

/-- Element i of the trajectory is the i-fold iterate of rk4_step applied to
the initial state. -/
theorem trajectory_getElem? (f : MetricFunction) (h step : ℚ) (n i : ℕ)
    (s : GeodesicState) (hi : i ≤ n) :
    (GeodesicSolver.trajectory f h step s n)[i]? =
      some ((GeodesicSolver.rk4_step f h step)^[i] s) := by
  induction n generalizing s i with
  | zero =>
      interval_cases i
      rfl
  | succ n ih =>
      rw [show GeodesicSolver.trajectory f h step s (n + 1) =
          s :: GeodesicSolver.trajectory f h step
            (GeodesicSolver.rk4_step f h step s) n from by
        rw [GeodesicSolver.trajectory]]
      cases i with
      | zero => simp
      | succ i =>
          rw [List.getElem?_cons_succ, ih i _ (by omega),
            Function.iterate_succ_apply]

/-- On a position-independent metric the i-fold iterate of rk4_step is exact
uniform linear motion from the initial condition. -/
theorem iterate_rk4_const (f : MetricFunction) (hc : ∀ p q, f p = f q)
    (h step : ℚ) (x0 : SpacetimePoint) (u0 : FourVelocity) (i : ℕ) :
    (GeodesicSolver.rk4_step f h step)^[i] ⟨x0, u0⟩ =
      ⟨x0 + ((i : ℚ) * step) • u0, u0⟩ := by
  induction i with
  | zero => simp
  | succ i ih =>
      rw [Function.iterate_succ_apply', ih, rk4_step_const f hc]
      congr 1
      funext j
      simp only [Pi.add_apply, Pi.smul_apply, smul_eq_mul]
      push_cast
      ring

end tensor

/-- C1: for every position-independent metric (the returned matrix does not
depend on the evaluation point) and every point, ChristoffelSymbols::compute
returns all 64 connection coefficients equal to zero — exactly, hence within
the spec tolerance 1e-8 — because each central finite difference
(g(x + h e_sigma) - g(x - h e_sigma)) / (2h) is the zero matrix. -/
theorem claim_C1_const_metric_zero_connection (f : MetricFunction)
    (hconst : ∀ p q, f p = f q) (h : ℚ) (x : SpacetimePoint)
    (lambda mu nu : Fin 4) :
    tensor.ChristoffelSymbols.compute f h x lambda mu nu = 0 := by
  rw [tensor.compute_const f hconst h x lambda]
  simp

/-- Witness for C1: the flat factory metric diag(-1,1,1,1) evaluated at the
all-ones point has zero connection coefficient at (0, 1, 2). -/
theorem claim_C1_witness :
    tensor.ChristoffelSymbols.compute (tensor.MetricTensor.make_minkowski 1 1)
      (1 / 100000) (fun _ => 1) 0 1 2 = 0 :=
  claim_C1_const_metric_zero_connection
    (tensor.MetricTensor.make_minkowski 1 1) (fun _ _ => rfl)
    (1 / 100000) (fun _ => 1) 0 1 2

/-- C2: for every position-independent metric, initial position x0, initial
velocity u0, step count and step size, the trajectory returned by
GeodesicSolver::integrate satisfies trajectory[i].position = x0 + (i*h)*u0 and
trajectory[i].velocity = u0 for every 0 ≤ i ≤ steps — exactly, hence within
the spec tolerances: RK4 reduces to uniform linear motion when the connection
is zero. -/
theorem claim_C2_uniform_linear_motion (f : MetricFunction)
    (hconst : ∀ p q, f p = f q) (christoffel_h step_size : ℚ)
    (x0 : SpacetimePoint) (u0 : FourVelocity) (steps i : ℕ) (hi : i ≤ steps) :
    (tensor.GeodesicSolver.integrate f christoffel_h step_size x0 u0 steps)[i]? =
      some ⟨x0 + ((i : ℚ) * step_size) • u0, u0⟩ := by
  unfold tensor.GeodesicSolver.integrate
  rw [tensor.trajectory_getElem? f christoffel_h step_size steps i _ hi,
    tensor.iterate_rk4_const f hconst]

/-- Witness for C2: integrating the flat factory metric for 3 steps of size
1/1000 from the origin with unit velocity puts entry 2 of the trajectory at
position (2/1000) * u0 with unchanged velocity. -/
theorem claim_C2_witness :
    (tensor.GeodesicSolver.integrate (tensor.MetricTensor.make_minkowski 1 1)
        (1 / 100000) (1 / 1000) (fun _ => 0) (fun _ => 1) 3)[2]? =
      some ⟨(fun _ => 0 : SpacetimePoint) +
          (((2 : ℕ) : ℚ) * (1 / 1000)) • (fun _ => 1 : FourVelocity),
        fun _ => 1⟩ :=
  claim_C2_uniform_linear_motion
    (tensor.MetricTensor.make_minkowski 1 1) (fun _ _ => rfl)
    (1 / 100000) (1 / 1000) (fun _ => 0) (fun _ => 1) 3 2 (by decide)

/-- C5: at every point where MetricTensor::inverse returns no value,
ChristoffelSymbols::compute returns the all-zero connection array rather than
propagating a failure, and contracting that array with any velocity yields the
zero acceleration vector. -/
theorem claim_C5_singular_metric_zero_connection (f : MetricFunction)
    (h : ℚ) (x : SpacetimePoint)
    (hsing : tensor.MetricTensor.inverse f x = none) :
    (∀ lambda, tensor.ChristoffelSymbols.compute f h x lambda = 0) ∧
      ∀ u : FourVelocity,
        tensor.ChristoffelSymbols.contract
          (tensor.ChristoffelSymbols.compute f h x) u = 0 := by
  have hz : ∀ lambda, tensor.ChristoffelSymbols.compute f h x lambda = 0 := by
    intro lambda
    unfold tensor.ChristoffelSymbols.compute
    rw [hsing]
  refine ⟨hz, fun u => ?_⟩
  funext lambda
  unfold tensor.ChristoffelSymbols.contract
  simp [hz]

/-- Witness for C5: the identically-zero metric is singular everywhere, and at
the all-twos point the computed connection array is zero at index 0. -/
theorem claim_C5_witness :
    tensor.ChristoffelSymbols.compute (fun _ => (0 : MetricMatrix))
      (1 / 100000) (fun _ => 2) 0 = 0 :=
  (claim_C5_singular_metric_zero_connection _ (1 / 100000) _
    (by simp [tensor.MetricTensor.inverse, tensor.MetricTensor.evaluate])).1 0

/-- C6: wherever MetricTensor::inverse returns a matrix, the product of the
evaluated metric with it is exactly the 4x4 identity (hence within the spec
tolerance 1e-10), and inverse returns no value exactly when the metric matrix
at the point is not invertible. -/
theorem claim_C6_inverse_identity (f : MetricFunction) (x : SpacetimePoint) :
    (∀ M, tensor.MetricTensor.inverse f x = some M →
        tensor.MetricTensor.evaluate f x * M = 1) ∧
      (tensor.MetricTensor.inverse f x = none ↔
        ¬ IsUnit (tensor.MetricTensor.evaluate f x)) := by
  unfold tensor.MetricTensor.inverse
  by_cases hdet : (tensor.MetricTensor.evaluate f x).det = 0
  · refine ⟨fun M hM => by simp [hdet] at hM, ?_⟩
    simp only [hdet, if_pos rfl]
    simp [Matrix.isUnit_iff_isUnit_det, isUnit_iff_ne_zero, hdet]
  · refine ⟨fun M hM => ?_, ?_⟩
    · rw [if_neg hdet] at hM
      obtain rfl : (tensor.MetricTensor.evaluate f x).det⁻¹ •
          (tensor.MetricTensor.evaluate f x).adjugate = M := by
        exact Option.some_injective _ hM
      rw [mul_smul_comm, Matrix.mul_adjugate, smul_smul,
        inv_mul_cancel₀ hdet, one_smul]
    · rw [if_neg hdet]
      simp [Matrix.isUnit_iff_isUnit_det, isUnit_iff_ne_zero, hdet]

/-- Witness for C6: the identically-zero metric is not invertible, so inverse
returns none at the all-threes point. -/
theorem claim_C6_witness :
    tensor.MetricTensor.inverse (fun _ => (0 : MetricMatrix))
      (fun _ => 3) = none :=
  (claim_C6_inverse_identity (fun _ => (0 : MetricMatrix)) (fun _ => 3)).2.mpr
    (by simp [tensor.MetricTensor.evaluate])

/-- Counterexample to C3 as stated: the variant that returns the full per-step
trajectory, tensor::GeodesicSolver::integrate, does not clamp its parameters.
A request of 0 steps performs 0 RK4 iterations (trajectory of length 1), not
the claimed clamp(0, 1, 100000) = 1 iteration, and with step size 5.0, outside
the claimed clamp range [1e-8, 1.0], one step advances the position by the
unclamped 5.0 times the velocity. -/
theorem claim_C3_counterexample :
    (tensor.GeodesicSolver.integrate (tensor.MetricTensor.make_minkowski 1 1)
        (1 / 100000) (1 / 100) (fun _ => 0) (fun _ => 1) 0).length = 1 ∧
      (tensor.GeodesicSolver.integrate (tensor.MetricTensor.make_minkowski 1 1)
          (1 / 100000) 5 (fun _ => 0) (fun _ => 1) 1)[1]? =
        some ⟨(fun _ => 0 : SpacetimePoint) +
            (((1 : ℕ) : ℚ) * 5) • (fun _ => 1 : FourVelocity), fun _ => 1⟩ := by
  constructor
  · rfl
  · unfold tensor.GeodesicSolver.integrate
    rw [tensor.trajectory_getElem? _ _ _ 1 1 _ (by decide),
      tensor.iterate_rk4_const (tensor.MetricTensor.make_minkowski 1 1)
        (fun _ _ => rfl)]

/-- C3 amended: srfm::geodesic::GeodesicSolver::solve clamps the requested
step count to [1, 100000] — a request of 10,000,000 steps runs exactly
100,000 iterations — and clamps the step size to [1e-8, 1.0], so it always
terminates; the trajectory-returning variant tensor::GeodesicSolver::integrate
instead performs exactly the requested number of iterations with the
unclamped step size, returning steps + 1 states, and also terminates on every
request. -/
theorem claim_C3_amended_clamping (steps : ℤ) (dt : ℚ) (f : MetricFunction)
    (christoffel_h step_size : ℚ) (x0 : SpacetimePoint) (u0 : FourVelocity)
    (n : ℕ) :
    (1 ≤ geodesic.clampSteps steps ∧ geodesic.clampSteps steps ≤ 100000) ∧
      geodesic.clampSteps 10000000 = 100000 ∧
      (1 / 100000000 ≤ geodesic.clampDt dt ∧ geodesic.clampDt dt ≤ 1) ∧
      (tensor.GeodesicSolver.integrate f christoffel_h step_size x0 u0 n).length
        = n + 1 := by
  refine ⟨⟨?_, ?_⟩, by decide, ⟨?_, ?_⟩, tensor.trajectory_length _ _ _ _ _⟩
  · unfold geodesic.clampSteps
    omega
  · unfold geodesic.clampSteps
    omega
  · unfold geodesic.clampDt
    exact le_min (le_trans (by norm_num) (le_max_right dt (1 / 100000000)))
      (by norm_num)
  · exact min_le_right _ _

/-- Outcome of rk4_step is absent exactly when some component of the combined
RK4 state is non-finite. -/
theorem rk4_step_none_iff (s : geodesic.GeodesicState) (gamma : Fin 64 → Dbl)
    (dt : ℚ) :
    geodesic.rk4_step s gamma dt = none ↔
      (geodesic.rk4_combine s gamma dt).is_finite = false := by
  unfold geodesic.rk4_step
  by_cases hf : (geodesic.rk4_combine s gamma dt).is_finite <;> simp [hf]

/-- A successful rk4_step only returns states that passed the per-component
finiteness check. -/
theorem rk4_step_some_finite (s : geodesic.GeodesicState) (gamma : Fin 64 → Dbl)
    (dt : ℚ) (s2 : geodesic.GeodesicState)
    (h : geodesic.rk4_step s gamma dt = some s2) : s2.is_finite = true := by
  unfold geodesic.rk4_step at h
  by_cases hf : (geodesic.rk4_combine s gamma dt).is_finite
  · rw [if_pos hf] at h
    cases h
    exact hf
  · rw [if_neg hf] at h
    cases h

/-- The RK4 loop of solve preserves finiteness: whenever it returns a state,
that state is finite. -/
theorem solveLoop_some_finite (gamma : Fin 64 → Dbl) (dt : ℚ) (n : ℕ) :
    ∀ s r : geodesic.GeodesicState, s.is_finite = true →
      geodesic.solveLoop gamma dt s n = some r → r.is_finite = true := by
  induction n with
  | zero =>
      intro s r hs h
      cases h
      exact hs
  | succ n ih =>
      intro s r hs h
      unfold geodesic.solveLoop at h
      cases hstep : geodesic.rk4_step s gamma dt with
      | none => rw [hstep] at h; cases h
      | some s2 =>
          rw [hstep] at h
          exact ih s2 r (rk4_step_some_finite s gamma dt s2 hstep) h

/-- C4: a non-finite component in the initial phase state makes solve return
an absent result before any RK4 step; a non-finite component appearing in the
combined state of any RK4 step makes that step — and with it the whole call —
return an absent result; consequently solve never returns a state with a
non-finite component, and it returns a single final state, never a partial
trajectory. -/
theorem claim_C4_nonfinite_rejection (initial : geodesic.GeodesicState)
    (metric : manifold.MetricTensor) (steps : ℤ) (dt : ℚ) :
    (initial.is_finite = false →
        geodesic.GeodesicSolver.solve initial metric steps dt = none) ∧
      (∀ (s : geodesic.GeodesicState) (gamma : Fin 64 → Dbl) (dtq : ℚ),
        geodesic.rk4_step s gamma dtq = none ↔
          (geodesic.rk4_combine s gamma dtq).is_finite = false) ∧
      (∀ r, geodesic.GeodesicSolver.solve initial metric steps dt = some r →
        r.is_finite = true) := by
  refine ⟨fun h => by simp [geodesic.GeodesicSolver.solve, h],
    rk4_step_none_iff, fun r h => ?_⟩
  unfold geodesic.GeodesicSolver.solve at h
  by_cases hi : initial.is_finite = false
  · rw [if_pos hi] at h
    cases h
  · rw [if_neg hi] at h
    by_cases hm : metric.is_valid = false
    · rw [if_pos hm] at h
      cases h
    · rw [if_neg hm] at h
      exact solveLoop_some_finite _ _ _ initial r
        (by revert hi; cases initial.is_finite <;> simp) h

/-- Witness for C4: an initial state with a NaN position component makes solve
return none for the flat Minkowski metric. -/
theorem claim_C4_witness :
    geodesic.GeodesicSolver.solve ⟨fun _ => Dbl.nan, fun _ => Dbl.fin 0⟩
      manifold.MetricTensor.minkowski 10 (1 / 100) = none :=
  (claim_C4_nonfinite_rejection ⟨fun _ => Dbl.nan, fun _ => Dbl.fin 0⟩
    manifold.MetricTensor.minkowski 10 (1 / 100)).1 (by decide)

/-- C10: solve also returns an absent result when the metric fails its
validity check — some entry non-finite, or the time-time entry at least 0, or
a spatial diagonal entry at most 0 — even for a perfectly finite initial
state. -/
theorem claim_C10_invalid_metric_rejection (initial : geodesic.GeodesicState)
    (metric : manifold.MetricTensor) (steps : ℤ) (dt : ℚ)
    (hbad : (∃ mu nu : Fin 4, (metric.g mu nu).isFin = false) ∨
      (∃ q : ℚ, metric.g 0 0 = Dbl.fin q ∧ 0 ≤ q) ∨
      (∃ i : Fin 4, i ≠ 0 ∧ ∃ q : ℚ, metric.g i i = Dbl.fin q ∧ q ≤ 0)) :
    geodesic.GeodesicSolver.solve initial metric steps dt = none := by
  have hv : metric.is_valid = false := by
    unfold manifold.MetricTensor.is_valid
    by_cases hall : ∀ mu nu : Fin 4, (metric.g mu nu).isFin = true
    · rw [if_neg (not_not_intro hall)]
      rcases hbad with ⟨mu, nu, hfin⟩ | ⟨q, hq, hq0⟩ | ⟨i, hi0, q, hq, hq0⟩
      · rw [hall mu nu] at hfin
        cases hfin
      · rw [if_pos (by rw [hq]; simpa [Dbl.ge_zero] using hq0)]
      · by_cases hge : (metric.g 0 0).ge_zero = true
        · rw [if_pos hge]
        · rw [if_neg hge,
            if_pos ⟨i, hi0, by rw [hq]; simpa [Dbl.le_zero] using hq0⟩]
    · rw [if_pos hall]
  simp [geodesic.GeodesicSolver.solve, hv]

/-- Witness for C10: the all-ones metric has time-time entry 1 >= 0, so solve
rejects it even from an entirely finite initial state. -/
theorem claim_C10_witness :
    geodesic.GeodesicSolver.solve ⟨fun _ => Dbl.fin 0, fun _ => Dbl.fin 0⟩
      ⟨fun _ _ => Dbl.fin 1⟩ 10 (1 / 100) = none :=
  claim_C10_invalid_metric_rejection ⟨fun _ => Dbl.fin 0, fun _ => Dbl.fin 0⟩
    ⟨fun _ _ => Dbl.fin 1⟩ 10 (1 / 100)
    (Or.inr (Or.inl ⟨1, rfl, by norm_num⟩))

/-- A finite double carries a rational value. -/
theorem Dbl.isFin_exists (d : Dbl) (h : d.isFin = true) : ∃ q, d = Dbl.fin q := by
  cases d with
  | nan => cases h
  | fin q => exact ⟨q, rfl⟩

/-- Subtraction of finite doubles is exact. -/
theorem Dbl.fin_sub_fin (a b : ℚ) : Dbl.fin a - Dbl.fin b = Dbl.fin (a - b) := rfl

/-- Multiplication of finite doubles is exact. -/
theorem Dbl.fin_mul_fin (a b : ℚ) : Dbl.fin a * Dbl.fin b = Dbl.fin (a * b) := rfl

/-- Addition of finite doubles is exact. -/
theorem Dbl.fin_add_fin (a b : ℚ) : Dbl.fin a + Dbl.fin b = Dbl.fin (a + b) := rfl

namespace tensor

/-- Re-embedding the rational values of a finite point reproduces the point. -/
theorem liftPoint_toQ (p : DblPoint) (h : all_finite p = true) :
    liftPoint (DblPoint.toQ p) = p := by
  have hfin : ∀ i : Fin 4, (p i).isFin = true := of_decide_eq_true h
  funext i
  obtain ⟨q, hq⟩ := Dbl.isFin_exists _ (hfin i)
  simp [liftPoint, DblPoint.toQ, hq, Dbl.toQ]

/-- The spatial deviation of a finite point from itself is exactly zero. -/
theorem spatial_deviation_self (p : DblPoint) (h : all_finite p = true) :
    GeodesicDeviationCalculator.spatial_deviation p p = Dbl.fin 0 := by
  have hfin : ∀ i : Fin 4, (p i).isFin = true := of_decide_eq_true h
  obtain ⟨q1, h1⟩ := Dbl.isFin_exists _ (hfin 1)
  obtain ⟨q2, h2⟩ := Dbl.isFin_exists _ (hfin 2)
  obtain ⟨q3, h3⟩ := Dbl.isFin_exists _ (hfin 3)
  unfold GeodesicDeviationCalculator.spatial_deviation
  rw [h1, h2, h3]
  simp [Dbl.fin_sub_fin, Dbl.fin_mul_fin, Dbl.fin_add_fin]

/-- Entry 0 of any trajectory is the initial state, pushed before the loop. -/
theorem trajectory_getD_zero (f : MetricFunction) (h step : ℚ)
    (s : GeodesicState) (n : ℕ) :
    (GeodesicSolver.trajectory f h step s n).getD 0 default = s := by
  cases n <;> simp [GeodesicSolver.trajectory]

end tensor

/-- Element i of compute on a sequence of two or more observations passing the
first-two-points finiteness guard, written out as the loop body of the source. -/
theorem compute_getElem?_guard_pass (f : MetricFunction) (step : ℚ)
    (events : List manifold.SpacetimeEvent) (i : ℕ)
    (h2 : 2 ≤ events.length) (hi : i < events.length)
    (hg0 : tensor.all_finite
      ((events.map tensor.GeodesicDeviationCalculator.to_point).getD 0
        default) = true)
    (hg1 : tensor.all_finite
      ((events.map tensor.GeodesicDeviationCalculator.to_point).getD 1
        default) = true) :
    (tensor.GeodesicDeviationCalculator.compute f step events)[i]? =
      some (
        let actual :=
          (events.map tensor.GeodesicDeviationCalculator.to_point).getD i default
        let geodesic := tensor.liftPoint
          ((tensor.GeodesicSolver.integrate f tensor.DEFAULT_FD_STEP step
              (tensor.DblPoint.toQ
                ((events.map tensor.GeodesicDeviationCalculator.to_point).getD 0
                  default))
              (tensor.GeodesicDeviationCalculator.estimate_velocity
                (tensor.DblPoint.toQ
                  ((events.map tensor.GeodesicDeviationCalculator.to_point).getD 0
                    default))
                (tensor.DblPoint.toQ
                  ((events.map tensor.GeodesicDeviationCalculator.to_point).getD 1
                    default)))
              (events.length - 1)).getD i default).position
        let valid := tensor.all_finite actual && tensor.all_finite geodesic
        if valid then
          let deviation :=
            tensor.GeodesicDeviationCalculator.spatial_deviation actual geodesic
          if deviation.isFin = false then
            ⟨Dbl.fin 0, (i : ℚ) * tensor.DEFAULT_GEODESIC_STEP, false⟩
          else ⟨deviation, (i : ℚ) * tensor.DEFAULT_GEODESIC_STEP, true⟩
        else ⟨Dbl.fin 0, (i : ℚ) * tensor.DEFAULT_GEODESIC_STEP, false⟩) := by
  simp only [tensor.GeodesicDeviationCalculator.compute]
  rw [if_neg (by omega), if_neg (by omega), if_neg (not_not_intro ⟨hg0, hg1⟩)]
  rw [List.getElem?_map, List.getElem?_range hi]
  rfl

/-- C7 corrected: an empty input yields an empty output; for a single
observation, and for two or more observations whose first two observed points
are finite, the first output sample of GeodesicDeviationCalculator::compute
has deviation 0 and valid true — the 0-th predicted point is the 0-th
observed point itself; and when a sequence of two or more observations has a
non-finite component among its first two points, every sample of the output,
including the first, is deviation 0, proper time 0, valid false.  (As
originally stated — valid = true for every non-empty sequence — the claim
fails on that last case; see the counterexample.) -/
theorem claim_C7_amended_first_sample (f : MetricFunction) (step : ℚ)
    (events : List manifold.SpacetimeEvent) :
    (events = [] →
      tensor.GeodesicDeviationCalculator.compute f step events = []) ∧
    (events ≠ [] →
      (events.length = 1 ∨
        (tensor.all_finite
            ((events.map tensor.GeodesicDeviationCalculator.to_point).getD 0
              default) = true ∧
          tensor.all_finite
            ((events.map tensor.GeodesicDeviationCalculator.to_point).getD 1
              default) = true)) →
      (tensor.GeodesicDeviationCalculator.compute f step events)[0]? =
        some ⟨Dbl.fin 0, 0, true⟩) ∧
    (2 ≤ events.length →
      ¬ (tensor.all_finite
            ((events.map tensor.GeodesicDeviationCalculator.to_point).getD 0
              default) = true ∧
          tensor.all_finite
            ((events.map tensor.GeodesicDeviationCalculator.to_point).getD 1
              default) = true) →
      tensor.GeodesicDeviationCalculator.compute f step events =
        List.replicate events.length ⟨Dbl.fin 0, 0, false⟩) := by
  refine ⟨?_, ?_, ?_⟩
  · intro h
    subst h
    rfl
  · intro hne hok
    have hlen : events.length ≠ 0 := by simpa using hne
    by_cases h1 : events.length = 1
    · unfold tensor.GeodesicDeviationCalculator.compute
      rw [if_neg hlen, if_pos h1]
      rfl
    · obtain ⟨hg0, hg1⟩ := hok.resolve_left h1
      have h2 : 2 ≤ events.length := by omega
      have hpos : 0 < events.length := by omega
      rw [compute_getElem?_guard_pass f step events 0 h2 hpos hg0 hg1]
      simp only [tensor.GeodesicSolver.integrate, tensor.trajectory_getD_zero,
        tensor.liftPoint_toQ _ hg0, hg0, Bool.and_self, if_true,
        tensor.spatial_deviation_self _ hg0, Dbl.isFin, Nat.cast_zero, zero_mul]
      simp
  · intro h2 hg
    unfold tensor.GeodesicDeviationCalculator.compute
    rw [if_neg (by omega), if_neg (by omega), if_pos hg]

/-- Counterexample to C7 as stated: a two-observation sequence whose first
point has a non-finite time component is non-empty, yet its first output
sample has valid = false (the all-invalid guard branch), not valid = true. -/
theorem claim_C7_counterexample :
    (tensor.GeodesicDeviationCalculator.compute
      (tensor.MetricTensor.make_minkowski 1 1) (1 / 100)
      [⟨Dbl.nan, Dbl.fin 0, Dbl.fin 0, Dbl.fin 0⟩,
       ⟨Dbl.fin 1, Dbl.fin 1, Dbl.fin 0, Dbl.fin 0⟩])[0]? =
      some ⟨Dbl.fin 0, 0, false⟩ := by
  decide

/-- Witness for C7: on two finite observations under the flat factory metric
the first sample is deviation 0, proper time 0, valid. -/
theorem claim_C7_witness :
    (tensor.GeodesicDeviationCalculator.compute
      (tensor.MetricTensor.make_minkowski 1 1) (1 / 100)
      [⟨Dbl.fin 0, Dbl.fin 0, Dbl.fin 0, Dbl.fin 0⟩,
       ⟨Dbl.fin 1, Dbl.fin 1, Dbl.fin 0, Dbl.fin 0⟩])[0]? =
      some ⟨Dbl.fin 0, 0, true⟩ :=
  (claim_C7_amended_first_sample (tensor.MetricTensor.make_minkowski 1 1)
      (1 / 100)
      [⟨Dbl.fin 0, Dbl.fin 0, Dbl.fin 0, Dbl.fin 0⟩,
       ⟨Dbl.fin 1, Dbl.fin 1, Dbl.fin 0, Dbl.fin 0⟩]).2.1 (by simp)
    (Or.inr ⟨by decide, by decide⟩)

/-- Projection of every branch of the per-sample construction onto its
recorded proper time. -/
theorem proper_time_branches (b c : Bool) (d2 : Dbl) (t : ℚ) (v1 v2 v3 : Bool)
    (d1 d3 : Dbl) :
    tensor.GeodesicSignal.proper_time
      (if b = true then
        (if c = false then ⟨d1, t, v1⟩ else ⟨d2, t, v2⟩)
      else (⟨d3, t, v3⟩ : tensor.GeodesicSignal)) = t := by
  split
  · split <;> rfl
  · rfl

/-- In the guard-pass case the proper time recorded for sample i is always
i times the global constant DEFAULT_GEODESIC_STEP, whatever the constructed
step size. -/
theorem compute_proper_time_guard_pass (f : MetricFunction) (step : ℚ)
    (events : List manifold.SpacetimeEvent) (i : ℕ)
    (h2 : 2 ≤ events.length) (hi : i < events.length)
    (hg0 : tensor.all_finite
      ((events.map tensor.GeodesicDeviationCalculator.to_point).getD 0
        default) = true)
    (hg1 : tensor.all_finite
      ((events.map tensor.GeodesicDeviationCalculator.to_point).getD 1
        default) = true) :
    ((tensor.GeodesicDeviationCalculator.compute f step events)[i]?).map
      tensor.GeodesicSignal.proper_time =
      some ((i : ℚ) * tensor.DEFAULT_GEODESIC_STEP) := by
  rw [compute_getElem?_guard_pass f step events i h2 hi hg0 hg1]
  simp only [Option.map_some', proper_time_branches]

/-- C8 as a code-level fact at the failing input: a calculator constructed
with step size 1/10 on two finite observations records proper time
1 * DEFAULT_GEODESIC_STEP = 1/100 for sample 1, which differs from the
claimed 1 * (1/10). -/
theorem claim_C8_bug_constant_proper_time :
    ((tensor.GeodesicDeviationCalculator.compute
        (tensor.MetricTensor.make_minkowski 1 1) (1 / 10)
        [⟨Dbl.fin 0, Dbl.fin 0, Dbl.fin 0, Dbl.fin 0⟩,
         ⟨Dbl.fin 1, Dbl.fin 1, Dbl.fin 0, Dbl.fin 0⟩])[1]?).map
      tensor.GeodesicSignal.proper_time = some (1 / 100) ∧
      (1 / 100 : ℚ) ≠ (1 : ℚ) * (1 / 10) := by
  constructor
  · rw [compute_proper_time_guard_pass
      (tensor.MetricTensor.make_minkowski 1 1) (1 / 10) _ 1
      (by decide) (by decide) (by decide) (by decide)]
    norm_num [tensor.DEFAULT_GEODESIC_STEP]
  · norm_num

/-- C9 corrected: for sequences of two or more observations, a sample whose
observed point has a non-finite component is reported with deviation 0 and
valid = false.  (As originally stated the claim fails in two ways: a
single-observation sequence gets valid = true with no finiteness check — see
the counterexample — and when the squared spatial difference of two finite
points overflows, the source coerces the deviation to the finite 0.0 inside
spatial_deviation, so the sample keeps valid = true; in the exact-arithmetic
model predicted points and deviations of finite inputs are always finite, so
those clauses are dropped.) -/
theorem claim_C9_amended_nonfinite_observation_invalid (f : MetricFunction)
    (step : ℚ) (events : List manifold.SpacetimeEvent) (i : ℕ)
    (h2 : 2 ≤ events.length) (hi : i < events.length)
    (hbad : tensor.all_finite
      ((events.map tensor.GeodesicDeviationCalculator.to_point).getD i
        default) = false) :
    ((tensor.GeodesicDeviationCalculator.compute f step events)[i]?).map
        tensor.GeodesicSignal.geodesic_deviation = some (Dbl.fin 0) ∧
      ((tensor.GeodesicDeviationCalculator.compute f step events)[i]?).map
        tensor.GeodesicSignal.is_valid = some false := by
  by_cases hg : tensor.all_finite
      ((events.map tensor.GeodesicDeviationCalculator.to_point).getD 0
        default) = true ∧
      tensor.all_finite
        ((events.map tensor.GeodesicDeviationCalculator.to_point).getD 1
          default) = true
  · rw [compute_getElem?_guard_pass f step events i h2 hi hg.1 hg.2]
    constructor <;>
      simp only [Option.map_some', hbad, Bool.false_and, Bool.false_eq_true,
        if_false]
  · have hrep : (tensor.GeodesicDeviationCalculator.compute f step events)[i]? =
        some ⟨Dbl.fin 0, 0, false⟩ := by
      unfold tensor.GeodesicDeviationCalculator.compute
      rw [if_neg (by omega), if_neg (by omega), if_pos hg]
      simp [List.getElem?_replicate, hi]
    rw [hrep]
    constructor <;> rfl

/-- Counterexample to C9 as stated: a single observation with a non-finite
time component still produces a sample with valid = true; no finiteness check
is performed on the single-observation path. -/
theorem claim_C9_counterexample :
    tensor.GeodesicDeviationCalculator.compute
      (tensor.MetricTensor.make_minkowski 1 1) (1 / 100)
      [⟨Dbl.nan, Dbl.fin 0, Dbl.fin 0, Dbl.fin 0⟩] =
      [⟨Dbl.fin 0, 0, true⟩] := by
  rfl

/-- Witness for C9: in a three-observation sequence whose third observed point
has a NaN component, sample 2 is reported with deviation 0 and valid false. -/
theorem claim_C9_witness :
    ((tensor.GeodesicDeviationCalculator.compute
        (tensor.MetricTensor.make_minkowski 1 1) (1 / 100)
        [⟨Dbl.fin 0, Dbl.fin 0, Dbl.fin 0, Dbl.fin 0⟩,
         ⟨Dbl.fin 1, Dbl.fin 1, Dbl.fin 0, Dbl.fin 0⟩,
         ⟨Dbl.nan, Dbl.fin 2, Dbl.fin 0, Dbl.fin 0⟩])[2]?).map
        tensor.GeodesicSignal.geodesic_deviation = some (Dbl.fin 0) ∧
      ((tensor.GeodesicDeviationCalculator.compute
        (tensor.MetricTensor.make_minkowski 1 1) (1 / 100)
        [⟨Dbl.fin 0, Dbl.fin 0, Dbl.fin 0, Dbl.fin 0⟩,
         ⟨Dbl.fin 1, Dbl.fin 1, Dbl.fin 0, Dbl.fin 0⟩,
         ⟨Dbl.nan, Dbl.fin 2, Dbl.fin 0, Dbl.fin 0⟩])[2]?).map
        tensor.GeodesicSignal.is_valid = some false :=
  claim_C9_amended_nonfinite_observation_invalid _ _ _ 2
    (by decide) (by decide) (by decide)

end SRFM
